import Mathlib

/-!
Shallow embedding of the `tls_explore` serialization engine.

The Rust code serializes protocol structures to big-endian byte buffers and
parses them back from a `std::io::Cursor<Vec<u8>>`.  Bytes are modelled as
`Nat` values (the buffers produced by the code always hold values `< 256`);
a `Vec<u8>` is a `List Nat`, a cursor is a buffer plus a read position.
Fallible operations return `Except DecErr`; the error constructors record
which failure the Rust code produces (`std::io::ErrorKind::UnexpectedEof`
from `read_exact`, the `ErrorKind::Other` "TryFrom() conversion error" from
the enum decoding macro, and the `panic!` on an out-of-range `BYTES`
parameter of a variable-length vector).

Sources embedded (the split three-trait engine, which the repository's later
files use, plus the identically-coded `TlsDerive` methods):
  - src/src/structurizer/to_network.rs   (`TlsToNetworkBytes`)
  - src/src/structurizer2/from_network.rs (`TlsFromNetworkBytes`)
  - src/src/structurizer2/length.rs       (`TlsLength`)
  - src/src/macros.rs                     (enum codec macros)
  - src/src/handshake/common.rs           (`VariableLengthVector`)
  - src/tls_derive/src/tls_struct.rs      (derived composite methods)
  - src/tls_derive/src/tls_enum.rs        (derived `TryFrom<u16>`)
-/

/-- Failure kinds of the codec operations.  `truncatedInput` models the
`UnexpectedEof` error of `Cursor::read_exact`, `tryFromError` the
`ErrorKind::Other` error built in `enum_from_network_bytes!`
(src/src/macros.rs lines 52-80), `invalidConfiguration` the `panic!` fired
when a `VariableLengthVector` is used with `BYTES` outside `{1,2,3}`. -/
inductive DecErr where
  | truncatedInput
  | tryFromError
  | invalidConfiguration
deriving DecidableEq, Repr

/-- A forward-only byte cursor, modelling `std::io::Cursor<Vec<u8>>`:
the underlying buffer together with the current read position. -/
structure Cursor where
  buf : List Nat
  pos : Nat
deriving DecidableEq, Repr

/-- Bytes remaining after the current position (`Cursor::remaining`). -/
def Cursor.remaining (c : Cursor) : Nat := c.buf.length - c.pos

/-- Model of `Cursor::read_exact` into an `n`-byte buffer (used by
byteorder's `read_u8`/`read_u16`/`read_u32`): if at least `n` bytes remain,
return them and advance the position by `n`; otherwise fail with
`UnexpectedEof` without advancing. -/
def readExact (c : Cursor) (n : Nat) : Except DecErr (List Nat × Cursor) :=
  if c.pos + n ≤ c.buf.length then
    .ok ((c.buf.drop c.pos).take n, ⟨c.buf, c.pos + n⟩)
  else
    .error .truncatedInput

/-- Big-endian value of a byte list (`u32::from_be_bytes` and byteorder's
`BigEndian` reads are instances at fixed widths). -/
def beVal (bs : List Nat) : Nat := bs.foldl (fun a b => a * 256 + b) 0

/-- The four big-endian bytes of a `u32` (`u32::to_be_bytes`). -/
def u32beBytes (x : Nat) : List Nat :=
  [x / 2 ^ 24 % 256, x / 2 ^ 16 % 256, x / 2 ^ 8 % 256, x % 256]

/-- Model of `impl TlsFromNetworkBytes for u8` (from_network.rs lines 30-35):
`*self = v.read_u8()?`.  The previous value of `self` is overwritten, so it
is an unused argument here. -/
def u8_from_network_bytes (_self : Nat) (v : Cursor) :
    Except DecErr (Nat × Cursor) :=
  match readExact v 1 with
  | .ok (bs, v') => .ok (beVal bs, v')
  | .error e => .error e

/-- Model of `impl TlsFromNetworkBytes for u16` (from_network.rs lines 46-51):
`*self = v.read_u16::<BigEndian>()?`. -/
def u16_from_network_bytes (_self : Nat) (v : Cursor) :
    Except DecErr (Nat × Cursor) :=
  match readExact v 2 with
  | .ok (bs, v') => .ok (beVal bs, v')
  | .error e => .error e

/-- Model of `impl TlsFromNetworkBytes for u32` (from_network.rs lines 62-67):
`*self = v.read_u32::<BigEndian>()?`. -/
def u32_from_network_bytes (_self : Nat) (v : Cursor) :
    Except DecErr (Nat × Cursor) :=
  match readExact v 4 with
  | .ok (bs, v') => .ok (beVal bs, v')
  | .error e => .error e

/-- Model of `impl TlsToNetworkBytes for u8` (to_network.rs lines 24-29):
`v.write_u8(*self)?; Ok(1)`.  Writing to a `Vec` cannot fail, so the
operation is modelled as total; the returned pair is the grown buffer and
the byte count the Rust method returns. -/
def u8_to_network_bytes (x : Nat) (v : List Nat) : List Nat × Nat :=
  (v ++ [x % 256], 1)

/-- Model of `impl TlsToNetworkBytes for u16` (to_network.rs lines 38-43):
`v.write_u16::<BigEndian>(*self)?; Ok(2)`. -/
def u16_to_network_bytes (x : Nat) (v : List Nat) : List Nat × Nat :=
  (v ++ [x / 2 ^ 8 % 256, x % 256], 2)

/-- Model of `impl TlsToNetworkBytes for u32` (to_network.rs lines 52-57):
`v.write_u32::<BigEndian>(*self)?; Ok(4)`. -/
def u32_to_network_bytes (x : Nat) (v : List Nat) : List Nat × Nat :=
  (v ++ u32beBytes x, 4)

/-- Model of `impl<T> TlsFromNetworkBytes for Option<T>` (from_network.rs lines
132-140): `if self.is_none() { Ok(()) } else {
self.as_mut().unwrap().from_network_bytes(v) }`. -/
def option_from_network_bytes {α : Type}
    (fromT : α → Cursor → Except DecErr (α × Cursor))
    (self : Option α) (v : Cursor) : Except DecErr (Option α × Cursor) :=
  match self with
  | none => .ok (none, v)
  | some x =>
    match fromT x v with
    | .ok (x', v') => .ok (some x', v')
    | .error e => .error e

/-- Model of `impl<T> TlsToNetworkBytes for Option<T>` (to_network.rs lines 133-141). -/
def option_to_network_bytes {α : Type} (toT : α → List Nat → List Nat × Nat)
    (self : Option α) (v : List Nat) : List Nat × Nat :=
  match self with
  | none => (v, 0)
  | some x => toT x v

/-- The composite structure `A { a: u16, b: u8 }` used by the repository's
own test `structurizer::to_network::tests::to_network_bytes`
(to_network.rs lines 230-239). -/
structure StructA where
  a : Nat
  b : Nat
deriving DecidableEq, Repr

/-- The `to_network_bytes` method generated for `StructA` by the
`tls_derive` macro (tls_struct.rs lines 92-99 and 142-146): a
`length += field.to_network_bytes(v)?;` line per field, in declared order,
then `Ok(length)`.  The scalar writes cannot fail, so the `?` never fires. -/
def structA_to_network_bytes (self : StructA) (v : List Nat) :
    List Nat × Nat :=
  let r1 := u16_to_network_bytes self.a v
  let r2 := u8_to_network_bytes self.b r1.1
  (r2.1, r1.2 + r2.2)

/-- The `tls_len` method generated for `StructA` (tls_struct.rs lines 82-89
and 138-140), with `enum_length!` giving `size_of` = 2 for `u16` and 1 for
`u8` (macros.rs lines 2-11). -/
def structA_tls_len (_self : StructA) : Nat := 0 + 2 + 1

/-- Value of `std::mem::size_of::<A>()` for `A { a: u16, b: u8 }`, as read by the
generic `VariableLengthVector` code.  Rust lays the struct out with
alignment 2 (the `u16` field), so its 3 bytes of content are rounded up to
size 4; this models the compiler's layout, which the codec source consults
through `std::mem::size_of`. -/
def size_of_StructA : Nat := 4

/-- Claim C6: decoding an `Option<T>` is a no-op returning success when the
destination is `None` (the cursor is returned unchanged and the value stays
`None`, however many bytes remain), and delegates to the inner type's
decode when the destination is `Some`. -/
theorem option_decode_asymmetry {α : Type}
    (fromT : α → Cursor → Except DecErr (α × Cursor)) (v : Cursor) (x : α) :
    option_from_network_bytes fromT none v = .ok (none, v) ∧
    option_from_network_bytes fromT (some x) v =
      (match fromT x v with
       | .ok (x', v') => .ok (some x', v')
       | .error e => .error e) :=
  ⟨rfl, rfl⟩

/-- Claim C7: the derived encode of `A { a: u16, b: u8 }` appends the
encoding of `a` then the encoding of `b` to the buffer, in declared field
order, and returns the sum 2 + 1 of the per-field byte counts; with
`a = 0x00FF`, `b = 0x20` the bytes appended to a fresh buffer are exactly
`[0x00, 0xFF, 0x20]`. -/
theorem composite_ordering (a b : Nat) (v : List Nat) :
    structA_to_network_bytes ⟨a, b⟩ v =
      (v ++ [a / 2 ^ 8 % 256, a % 256, b % 256], 3) ∧
    structA_to_network_bytes ⟨0x00FF, 0x20⟩ [] = ([0x00, 0xFF, 0x20], 3) := by
  constructor
  · simp [structA_to_network_bytes, u16_to_network_bytes, u8_to_network_bytes]
  · rfl

/-- Claim C8: each scalar decode fails with the truncated-input error when
fewer bytes remain than its width requires: 1 byte for `u8`, 2 for `u16`,
4 for `u32`; in particular a 32-bit read from a 3-byte cursor fails. -/
theorem scalar_truncation (c : Cursor) :
    (c.buf.length < c.pos + 1 →
      u8_from_network_bytes 0 c = .error .truncatedInput) ∧
    (c.buf.length < c.pos + 2 →
      u16_from_network_bytes 0 c = .error .truncatedInput) ∧
    (c.buf.length < c.pos + 4 →
      u32_from_network_bytes 0 c = .error .truncatedInput) := by
  refine ⟨fun h => ?_, fun h => ?_, fun h => ?_⟩ <;>
    simp [u8_from_network_bytes, u16_from_network_bytes,
      u32_from_network_bytes, readExact, Nat.not_le.mpr h]

/-- Witness for C8: decoding a `u32` from the 3-byte cursor `[1, 2, 3]`
fails with the truncated-input error. -/
theorem scalar_truncation_witness :
    u32_from_network_bytes 0 ⟨[1, 2, 3], 0⟩ = .error .truncatedInput :=
  (scalar_truncation ⟨[1, 2, 3], 0⟩).2.2 (by decide)

/-- The tagged enumeration `AlertLevel` (src/src/alert/alert.rs lines 11-14). -/
inductive AlertLevel where
  | warning
  | fatal
deriving DecidableEq, Repr

/-- Discriminants of `AlertLevel` (`warning = 1`, `fatal = 2`). -/
def AlertLevel.disc : AlertLevel → Nat
  | .warning => 1
  | .fatal => 2

/-- The `TryFrom<u16>` implementation generated for `AlertLevel` by the
`TlsEnum` derive macro (tls_enum.rs lines 135-145): a match over the
registered discriminants, every other value is an error. -/
def AlertLevel.tryFromU16 : Nat → Option AlertLevel
  | 1 => some .warning
  | 2 => some .fatal
  | _ => none

/-- Model of `enum_from_network_bytes!(AlertLevel, u8)` (macros.rs lines 52-65,
instantiated in from_network.rs line 96): read one byte, map it through
`try_from(value as u16)`, error out when no variant matches. -/
def AlertLevel.from_network_bytes (_self : AlertLevel) (v : Cursor) :
    Except DecErr (AlertLevel × Cursor) :=
  match readExact v 1 with
  | .ok (bs, v') =>
    match AlertLevel.tryFromU16 (beVal bs) with
    | some ct => .ok (ct, v')
    | none => .error .tryFromError
  | .error e => .error e

/-- The tagged enumeration `AlertDescription` (src/src/alert/alert.rs lines
19-45), with its 25 variants. -/
inductive AlertDescription where
  | close_notify
  | unexpected_message
  | bad_record_mac
  | decryption_failed_RESERVED
  | record_overflow
  | decompression_failure
  | handshake_failure
  | no_certificate_RESERVED
  | bad_certificate
  | unsupported_certificate
  | certificate_revoked
  | certificate_expired
  | certificate_unknown
  | illegal_parameter
  | unknown_ca
  | access_denied
  | decode_error
  | decrypt_error
  | export_restriction_RESERVED
  | protocol_version
  | insufficient_security
  | internal_error
  | user_canceled
  | no_renegotiation
  | unsupported_extension
deriving DecidableEq, Repr

/-- Discriminants of `AlertDescription` as declared in alert.rs. -/
def AlertDescription.disc : AlertDescription → Nat
  | .close_notify => 0
  | .unexpected_message => 10
  | .bad_record_mac => 20
  | .decryption_failed_RESERVED => 21
  | .record_overflow => 22
  | .decompression_failure => 30
  | .handshake_failure => 40
  | .no_certificate_RESERVED => 41
  | .bad_certificate => 42
  | .unsupported_certificate => 43
  | .certificate_revoked => 44
  | .certificate_expired => 45
  | .certificate_unknown => 46
  | .illegal_parameter => 47
  | .unknown_ca => 48
  | .access_denied => 49
  | .decode_error => 50
  | .decrypt_error => 51
  | .export_restriction_RESERVED => 60
  | .protocol_version => 70
  | .insufficient_security => 71
  | .internal_error => 80
  | .user_canceled => 90
  | .no_renegotiation => 100
  | .unsupported_extension => 110

/-- The `TryFrom<u16>` implementation generated for `AlertDescription` by
the `TlsEnum` derive macro (tls_enum.rs lines 135-145). -/
def AlertDescription.tryFromU16 : Nat → Option AlertDescription
  | 0 => some .close_notify
  | 10 => some .unexpected_message
  | 20 => some .bad_record_mac
  | 21 => some .decryption_failed_RESERVED
  | 22 => some .record_overflow
  | 30 => some .decompression_failure
  | 40 => some .handshake_failure
  | 41 => some .no_certificate_RESERVED
  | 42 => some .bad_certificate
  | 43 => some .unsupported_certificate
  | 44 => some .certificate_revoked
  | 45 => some .certificate_expired
  | 46 => some .certificate_unknown
  | 47 => some .illegal_parameter
  | 48 => some .unknown_ca
  | 49 => some .access_denied
  | 50 => some .decode_error
  | 51 => some .decrypt_error
  | 60 => some .export_restriction_RESERVED
  | 70 => some .protocol_version
  | 71 => some .insufficient_security
  | 80 => some .internal_error
  | 90 => some .user_canceled
  | 100 => some .no_renegotiation
  | 110 => some .unsupported_extension
  | _ => none

/-- Model of `enum_from_network_bytes!(AlertDescription, u8)` (macros.rs lines 52-65,
instantiated in from_network.rs line 95). -/
def AlertDescription.from_network_bytes (_self : AlertDescription)
    (v : Cursor) : Except DecErr (AlertDescription × Cursor) :=
  match readExact v 1 with
  | .ok (bs, v') =>
    match AlertDescription.tryFromU16 (beVal bs) with
    | some ct => .ok (ct, v')
    | none => .error .tryFromError
  | .error e => .error e

/-- Model of `enum_to_network_bytes!(AlertDescription)` (macros.rs lines 38-48):
`v.write_u8(*self as u8)?; Ok(1)`. -/
def AlertDescription.to_network_bytes (self : AlertDescription)
    (v : List Nat) : List Nat × Nat :=
  (v ++ [self.disc % 256], 1)

/-- The tagged enumeration `ExtensionType` (src/src/handshake/client_hello.rs
lines 86-94), declared `repr(u16)`. -/
inductive ExtensionType where
  | server_name
  | max_fragment_length
  | client_certificate_url
  | trusted_ca_keys
  | truncated_hmac
  | status_request
  | signature_algorithms
deriving DecidableEq, Repr

/-- Discriminants of `ExtensionType` as declared in client_hello.rs. -/
def ExtensionType.disc : ExtensionType → Nat
  | .server_name => 0
  | .max_fragment_length => 1
  | .client_certificate_url => 2
  | .trusted_ca_keys => 3
  | .truncated_hmac => 4
  | .status_request => 5
  | .signature_algorithms => 13

/-- The `TryFrom<u16>` implementation generated for `ExtensionType`. -/
def ExtensionType.tryFromU16 : Nat → Option ExtensionType
  | 0 => some .server_name
  | 1 => some .max_fragment_length
  | 2 => some .client_certificate_url
  | 3 => some .trusted_ca_keys
  | 4 => some .truncated_hmac
  | 5 => some .status_request
  | 13 => some .signature_algorithms
  | _ => none

/-- Model of `enum_to_network_bytes!(ExtensionType)` (to_network.rs line 100 via
macros.rs lines 38-48): the macro always writes a single byte,
`v.write_u8(*self as u8)?; Ok(1)`, even for this `repr(u16)` enumeration. -/
def ExtensionType.to_network_bytes (self : ExtensionType) (v : List Nat) :
    List Nat × Nat :=
  (v ++ [self.disc % 256], 1)

/-- Model of `enum_from_network_bytes!(ExtensionType, u16)` (from_network.rs line 97
via macros.rs lines 67-79): read a two-byte big-endian integer and map it
through `try_from`. -/
def ExtensionType.from_network_bytes (_self : ExtensionType) (v : Cursor) :
    Except DecErr (ExtensionType × Cursor) :=
  match readExact v 2 with
  | .ok (bs, v') =>
    match ExtensionType.tryFromU16 (beVal bs) with
    | some ct => .ok (ct, v')
    | none => .error .tryFromError
  | .error e => .error e

/-- Claim C1 (failing input): in the split engine, encoding
`ExtensionType::server_name` appends the single byte `[0x00]` (the
`enum_to_network_bytes!` macro writes one byte with `write_u8`), but
decoding from a fresh one-byte buffer reads a two-byte big-endian integer
(the `u16` arm of `enum_from_network_bytes!`) and fails with the
truncated-input error — so `decode(encode(x))` errors instead of returning
`x`, breaking the round-trip for this codec-capable tagged enumeration. -/
theorem extensiontype_roundtrip_fails :
    ExtensionType.to_network_bytes .server_name [] = ([0x00], 1) ∧
    ExtensionType.from_network_bytes .server_name ⟨[0x00], 0⟩ =
      .error .truncatedInput ∧
    ExtensionType.from_network_bytes .server_name ⟨[0x00], 0⟩ ≠
      .ok (.server_name, ⟨[0x00], 1⟩) :=
  ⟨rfl, rfl, fun h => Except.noConfusion h⟩

/-- Claim C4 (counterexample): `AlertDescription` does register the
discriminant 42 (`bad_certificate` in alert.rs line 28), so decoding the
byte 42 succeeds with `bad_certificate` rather than yielding the
unknown-discriminant error the claim asserts at this input. -/
theorem alertdescription_42_decodes :
    AlertDescription.from_network_bytes .close_notify ⟨[42], 0⟩ =
      .ok (.bad_certificate, ⟨[42], 1⟩) ∧
    AlertDescription.from_network_bytes .close_notify ⟨[42], 0⟩ ≠
      .error .tryFromError :=
  ⟨rfl, fun h => Except.noConfusion h⟩

/-- Claim C4 (amended): decoding a tagged enumeration reads one
underlying-width integer and maps it through the discriminant table, and
for every byte value with no matching `AlertDescription` variant the decode
returns the conversion error (never a silently substituted variant); 42 is
a registered `AlertDescription` discriminant, but decoding 42 against
`AlertLevel` (valid set `{1, 2}`) does yield the error. -/
theorem enumeration_rejection (b : Nat) (self : AlertDescription)
    (selfL : AlertLevel) (h : AlertDescription.tryFromU16 b = none) :
    AlertDescription.from_network_bytes self ⟨[b], 0⟩ =
      .error .tryFromError ∧
    AlertLevel.from_network_bytes selfL ⟨[42], 0⟩ = .error .tryFromError := by
  constructor
  · simp [AlertDescription.from_network_bytes, readExact, beVal, h]
  · rfl

/-- Witness for the amended C4: the byte 5 matches no `AlertDescription`
variant, and decoding it errors; decoding 42 against `AlertLevel` errors. -/
theorem enumeration_rejection_witness :
    AlertDescription.from_network_bytes .close_notify ⟨[5], 0⟩ =
      .error .tryFromError ∧
    AlertLevel.from_network_bytes .warning ⟨[42], 0⟩ =
      .error .tryFromError :=
  enumeration_rejection 5 .close_notify .warning (by decide)

/-- The `VariableLengthVector<T, MIN, BYTES>` structure
(src/src/handshake/common.rs lines 73-77): a `u32` byte-length field and a
vector of elements.  `MIN` is never read by any codec method and `BYTES`
is passed to the generic operations below as an explicit argument. -/
structure VariableLengthVector (α : Type) where
  length : Nat
  data : List α
deriving DecidableEq, Repr

/-- Model of `VariableLengthVector::from_slice` (common.rs lines 90-98):
`length = data.len() * mem::size_of::<T>()`. -/
def vlv_from_slice {α : Type} (sizeOfT : Nat) (data : List α) :
    VariableLengthVector α :=
  ⟨data.length * sizeOfT, data⟩

/-- Model of `impl TlsLength for VariableLengthVector` (length.rs lines 66-70):
`BYTES as usize + self.data.len() * std::mem::size_of::<T>()`. -/
def vlv_tls_len {α : Type} (sizeOfT BYTES : Nat)
    (self : VariableLengthVector α) : Nat :=
  BYTES + self.data.length * sizeOfT

/-- The `for item in &self.data { length += item.to_network_bytes(v)?; }`
loop shared by the container encoders; the element encoders in this
development are total, so the loop is too. -/
def encodeLoop {α : Type} (toT : α → List Nat → List Nat × Nat) :
    List α → List Nat → Nat → List Nat × Nat
  | [], v, length => (v, length)
  | x :: rest, v, length =>
    let r := toT x v
    encodeLoop toT rest r.1 (length + r.2)

/-- Model of `impl TlsToNetworkBytes for VariableLengthVector` (to_network.rs lines
153-176): slice the big-endian bytes of `self.length` down to `BYTES`
bytes (`&buffer[4-BYTES..4]`), append them, then append each element's
encoding and return `element bytes + BYTES`; any `BYTES` outside `{1,2,3}`
panics. -/
def vlv_to_network_bytes {α : Type} (toT : α → List Nat → List Nat × Nat)
    (BYTES : Nat) (self : VariableLengthVector α) (v : List Nat) :
    Except DecErr (List Nat × Nat) :=
  let buffer := u32beBytes self.length
  match BYTES with
  | 1 =>
    let r := encodeLoop toT self.data (v ++ buffer.drop 3) 0
    .ok (r.1, r.2 + 1)
  | 2 =>
    let r := encodeLoop toT self.data (v ++ buffer.drop 2) 0
    .ok (r.1, r.2 + 2)
  | 3 =>
    let r := encodeLoop toT self.data (v ++ buffer.drop 1) 0
    .ok (r.1, r.2 + 3)
  | _ => .error .invalidConfiguration

/-- Model of `v.take(BYTES as u64).read(&mut buffer)` against the 4-byte
stack buffer (from_network.rs line 171): reads
`min (min BYTES 4) remaining` bytes — never failing — and advances the
cursor by that amount. -/
def vlvTakeRead (v : Cursor) (limit : Nat) : List Nat × Cursor :=
  let k := min (min limit 4) (v.buf.length - v.pos)
  ((v.buf.drop v.pos).take k, ⟨v.buf, v.pos + k⟩)

/-- Model of `<[u8; 4]>::rotate_right(k)` on the 4-byte buffer (from_network.rs
lines 174-179): the last `k` entries move to the front. -/
def rotateRight4 (l : List Nat) (k : Nat) : List Nat :=
  l.drop (4 - k) ++ l.take (4 - k)

/-- The `for _ in 0..length { let mut u = T::default();
u.from_network_bytes(v)?; self.data.push(u); }` loop shared by the
container decoders: decode `n` fresh elements, appending each to the
accumulator, propagating the first failure. -/
def decodeLoop {α : Type} (fromT : α → Cursor → Except DecErr (α × Cursor))
    (defaultT : α) : Nat → List α → Cursor → Except DecErr (List α × Cursor)
  | 0, data, v => .ok (data, v)
  | n + 1, data, v =>
    match fromT defaultT v with
    | .ok (u, v') => decodeLoop fromT defaultT n (data ++ [u]) v'
    | .error e => .error e

/-- The `match BYTES { 1 => buffer.rotate_right(3), 2 =>
buffer.rotate_right(2), 3 => buffer.rotate_right(1), _ => panic!(...) }`
block of the vector decoder (from_network.rs lines 174-179); `none` stands
for the panic arm. -/
def vlvRotate (BYTES : Nat) (buffer : List Nat) : Option (List Nat) :=
  match BYTES with
  | 1 => some (rotateRight4 buffer 3)
  | 2 => some (rotateRight4 buffer 2)
  | 3 => some (rotateRight4 buffer 1)
  | _ => none

/-- Model of `impl TlsFromNetworkBytes for VariableLengthVector` (from_network.rs
lines 159-194): fill a zeroed 4-byte buffer with up to `BYTES` bytes from
the cursor, rotate it right so the bytes read become the low-order end,
take `u32::from_be_bytes` as the new `length`, then decode
`length / size_of::<T>()` elements, pushing each onto the existing
`data`. -/
def vlv_from_network_bytes {α : Type} (sizeOfT : Nat) (defaultT : α)
    (fromT : α → Cursor → Except DecErr (α × Cursor)) (BYTES : Nat)
    (self : VariableLengthVector α) (v : Cursor) :
    Except DecErr (VariableLengthVector α × Cursor) :=
  let r := vlvTakeRead v BYTES
  let buffer := r.1 ++ List.replicate (4 - r.1.length) 0
  match vlvRotate BYTES buffer with
  | none => .error .invalidConfiguration
  | some buf4 =>
    let length := beVal buf4
    match decodeLoop fromT defaultT (length / sizeOfT) self.data r.2 with
    | .ok (data, v') => .ok (⟨length, data⟩, v')
    | .error e => .error e

/-- Model of `impl<T> TlsFromNetworkBytes for Vec<T>` (from_network.rs lines
205-216): the element count is `v.get_ref().len() / size_of::<T>()` — the
length of the cursor's whole underlying buffer, not the bytes remaining —
then that many elements are decoded and pushed. -/
def vec_from_network_bytes {α : Type} (sizeOfT : Nat) (defaultT : α)
    (fromT : α → Cursor → Except DecErr (α × Cursor))
    (self : List α) (v : Cursor) : Except DecErr (List α × Cursor) :=
  let length := v.buf.length / sizeOfT
  decodeLoop fromT defaultT length self v

theorem decodeLoop_append {α : Type}
    (fromT : α → Cursor → Except DecErr (α × Cursor)) (defaultT : α)
    (n : Nat) :
    ∀ (d acc : List α) (c : Cursor),
    decodeLoop fromT defaultT n (d ++ acc) c =
      match decodeLoop fromT defaultT n acc c with
      | .ok (l, c') => .ok (d ++ l, c')
      | .error e => .error e := by
  induction n with
  | zero => intro d acc c; rfl
  | succ n ih =>
    intro d acc c
    simp only [decodeLoop]
    cases fromT defaultT c with
    | ok p =>
      obtain ⟨u, v'⟩ := p
      simpa [List.append_assoc] using ih d (acc ++ [u]) v'
    | error e => rfl

theorem decodeLoop_nil {α : Type}
    (fromT : α → Cursor → Except DecErr (α × Cursor)) (defaultT : α)
    (n : Nat) (d : List α) (c : Cursor) :
    decodeLoop fromT defaultT n d c =
      match decodeLoop fromT defaultT n [] c with
      | .ok (l, c') => .ok (d ++ l, c')
      | .error e => .error e := by
  simpa using decodeLoop_append fromT defaultT n d [] c

theorem beVal_replicate_zero (m : Nat) (bs : List Nat) :
    beVal (List.replicate m 0 ++ bs) = beVal bs := by
  induction m with
  | zero => rfl
  | succ m ih => simpa [beVal, List.replicate_succ] using ih

theorem rotateRight4_pad (bs : List Nat) (B : Nat) (hB : B ≤ 4)
    (hl : bs.length = B) :
    rotateRight4 (bs ++ List.replicate (4 - B) 0) (4 - B) =
      List.replicate (4 - B) 0 ++ bs := by
  unfold rotateRight4
  have h4 : 4 - (4 - B) = B := by omega
  rw [h4, ← hl, List.drop_left, List.take_left]

theorem decodeLoop_u8 (buf : List Nat) (n : Nat) :
    ∀ (p : Nat) (acc : List Nat), p + n ≤ buf.length →
    decodeLoop u8_from_network_bytes 0 n acc ⟨buf, p⟩ =
      .ok (acc ++ (buf.drop p).take n, ⟨buf, p + n⟩) := by
  induction n with
  | zero => intro p acc _; simp [decodeLoop]
  | succ n ih =>
    intro p acc h
    have hdrop : buf.drop p = buf[p] :: buf.drop (p + 1) :=
      List.drop_eq_getElem_cons (by omega)
    have h2 : readExact ⟨buf, p⟩ 1 = .ok ([buf[p]], ⟨buf, p + 1⟩) := by
      unfold readExact
      rw [if_pos (show p + 1 ≤ buf.length by omega), hdrop]
      rfl
    simp only [decodeLoop, u8_from_network_bytes, h2]
    rw [ih (p + 1) _ (by omega), hdrop, List.take_succ_cons]
    have hb : beVal [buf[p]] = buf[p] := by simp [beVal]
    have harith : p + 1 + n = p + (n + 1) := by omega
    rw [hb, harith]
    simp [List.append_assoc]

theorem decodeLoop_u16_ok (buf : List Nat) (n : Nat) :
    ∀ (p : Nat) (acc : List Nat), p + 2 * n ≤ buf.length →
    ∃ l : List Nat, l.length = n ∧
    decodeLoop u16_from_network_bytes 0 n acc ⟨buf, p⟩ =
      .ok (acc ++ l, ⟨buf, p + 2 * n⟩) := by
  induction n with
  | zero => intro p acc _; exact ⟨[], rfl, by simp [decodeLoop]⟩
  | succ n ih =>
    intro p acc h
    have h2 : readExact ⟨buf, p⟩ 2 =
        .ok ((buf.drop p).take 2, ⟨buf, p + 2⟩) := by
      unfold readExact
      rw [if_pos (show p + 2 ≤ buf.length by omega)]
    obtain ⟨l, hl, he⟩ :=
      ih (p + 2) (acc ++ [beVal ((buf.drop p).take 2)]) (by omega)
    refine ⟨beVal ((buf.drop p).take 2) :: l, by simp [hl], ?_⟩
    simp only [decodeLoop, u16_from_network_bytes, h2]
    rw [he]
    have harith : p + 2 + 2 * n = p + 2 * (n + 1) := by omega
    rw [harith]
    simp [List.append_assoc]

theorem decodeLoop_u16_fail (buf : List Nat) (n : Nat) :
    ∀ (p : Nat) (acc : List Nat), p ≤ buf.length →
    buf.length < p + 2 * n →
    decodeLoop u16_from_network_bytes 0 n acc ⟨buf, p⟩ =
      .error .truncatedInput := by
  induction n with
  | zero => intro p acc hp h; exact absurd h (by omega)
  | succ n ih =>
    intro p acc hp h
    by_cases h2 : p + 2 ≤ buf.length
    · have hr : readExact ⟨buf, p⟩ 2 =
          .ok ((buf.drop p).take 2, ⟨buf, p + 2⟩) := by
        unfold readExact
        rw [if_pos h2]
      simp only [decodeLoop, u16_from_network_bytes, hr]
      exact ih (p + 2) _ h2 (by omega)
    · have hr : readExact ⟨buf, p⟩ 2 = .error .truncatedInput := by
        unfold readExact
        rw [if_neg h2]
      simp only [decodeLoop, u16_from_network_bytes, hr]

theorem encodeLoop_u8 (data : List Nat) :
    ∀ (v : List Nat) (n0 : Nat), (∀ b ∈ data, b < 256) →
    encodeLoop u8_to_network_bytes data v n0 =
      (v ++ data, n0 + data.length) := by
  induction data with
  | nil => intro v n0 _; simp [encodeLoop]
  | cons b rest ih =>
    intro v n0 h
    have hb : b % 256 = b := Nat.mod_eq_of_lt (h b (by simp))
    simp only [encodeLoop, u8_to_network_bytes]
    rw [ih (v ++ [b % 256]) (n0 + 1) (fun x hx => h x (by simp [hx]))]
    simp [hb, List.append_assoc]
    omega

/-- Claim C9: decoding into a `VariableLengthVector` never clears `data` —
whatever the instance already held stays in place and the freshly decoded
elements are pushed after it, so the result on an instance holding `d` is
exactly the result on an empty instance with `d` prepended to the decoded
elements (the pre-existing `length` field plays no role in decoding). -/
theorem vlv_decode_preserves_data {α : Type} (sizeOfT : Nat) (defaultT : α)
    (fromT : α → Cursor → Except DecErr (α × Cursor)) (BYTES : Nat)
    (L1 L2 : Nat) (d : List α) (c : Cursor) :
    vlv_from_network_bytes sizeOfT defaultT fromT BYTES ⟨L1, d⟩ c =
      match vlv_from_network_bytes sizeOfT defaultT fromT BYTES ⟨L2, []⟩ c
          with
      | .ok (w, c') => .ok (⟨w.length, d ++ w.data⟩, c')
      | .error e => .error e := by
  simp only [vlv_from_network_bytes]
  cases hrot : vlvRotate BYTES
      ((vlvTakeRead c BYTES).1 ++
        List.replicate (4 - (vlvTakeRead c BYTES).1.length) 0) with
  | none => rfl
  | some buf4 =>
    dsimp only
    rw [decodeLoop_nil fromT defaultT (beVal buf4 / sizeOfT) d]
    cases decodeLoop fromT defaultT (beVal buf4 / sizeOfT) []
        (vlvTakeRead c BYTES).2 with
    | ok p => obtain ⟨l, c'⟩ := p; rfl
    | error e => rfl

/-- Claim C10 (counterexample): with `u16` elements and the five-byte
buffer `[0,1,2,3,4]`, a cursor at position 1 is not at the start, yet
`Vec<T>::from_network_bytes` succeeds: it decodes
`buffer_total_length / 2 = 2` elements from the four remaining bytes,
returning `[0x0102, 0x0304]` — it does not fail as the claim asserts for
every nonzero position. -/
theorem vec_decode_nonzero_pos_succeeds :
    vec_from_network_bytes 2 0 u16_from_network_bytes []
        ⟨[0, 1, 2, 3, 4], 1⟩ =
      .ok ([0x0102, 0x0304], ⟨[0, 1, 2, 3, 4], 5⟩) ∧
    vec_from_network_bytes 2 0 u16_from_network_bytes []
        ⟨[0, 1, 2, 3, 4], 1⟩ ≠ .error .truncatedInput :=
  ⟨rfl, fun h => Except.noConfusion h⟩

/-- Claim C10 (amended): decoding a bare `Vec<u16>` computes its element
count as `(total length of the cursor's underlying buffer) / 2` — not from
the bytes remaining and not from any length prefix — so it decodes that
many elements, consuming `2 * (total / 2)` bytes; it succeeds exactly when
that many bytes remain past the current position (hence at position 0 it
consumes the whole buffer whenever the element size divides the buffer
length) and fails with the truncated-input error whenever fewer remain. -/
theorem vec_decode_uses_total_length (buf : List Nat) (p : Nat)
    (acc : List Nat) :
    (p + 2 * (buf.length / 2) ≤ buf.length →
      ∃ l : List Nat, l.length = buf.length / 2 ∧
        vec_from_network_bytes 2 0 u16_from_network_bytes acc ⟨buf, p⟩ =
          .ok (acc ++ l, ⟨buf, p + 2 * (buf.length / 2)⟩)) ∧
    (p ≤ buf.length → buf.length < p + 2 * (buf.length / 2) →
      vec_from_network_bytes 2 0 u16_from_network_bytes acc ⟨buf, p⟩ =
        .error .truncatedInput) := by
  constructor
  · intro h
    obtain ⟨l, hl, he⟩ := decodeLoop_u16_ok buf (buf.length / 2) p acc h
    exact ⟨l, hl, he⟩
  · intro hp h
    exact decodeLoop_u16_fail buf (buf.length / 2) p acc hp h

/-- Witness for the amended C10: on the three-byte buffer `[0, 1, 2]` at
position 1, the count is `3 / 2 = 1` and the decode succeeds, consuming
two bytes. -/
theorem vec_decode_uses_total_length_witness :
    ∃ l : List Nat, l.length = 1 ∧
      vec_from_network_bytes 2 0 u16_from_network_bytes [] ⟨[0, 1, 2], 1⟩ =
        .ok ([] ++ l, ⟨[0, 1, 2], 1 + 2 * 1⟩) :=
  (vec_decode_uses_total_length [0, 1, 2] 1 []).1 (by decide)

theorem vlvRotate_pad (B : Nat) (hB : B = 1 ∨ B = 2 ∨ B = 3)
    (bs : List Nat) (hl : bs.length = B) :
    vlvRotate B (bs ++ List.replicate (4 - B) 0) =
      some (List.replicate (4 - B) 0 ++ bs) := by
  rcases hB with rfl | rfl | rfl <;>
    simpa [vlvRotate] using rotateRight4_pad bs _ (by omega) hl

theorem rotateRight4_pad_short (bs : List Nat) (B k : Nat) (hB : B ≤ 4)
    (hk : k < B) (hl : bs.length = k) :
    rotateRight4 (bs ++ List.replicate (4 - k) 0) (4 - B) =
      List.replicate (4 - B) 0 ++ (bs ++ List.replicate (B - k) 0) := by
  unfold rotateRight4
  have h4 : 4 - (4 - B) = B := by omega
  rw [h4, List.drop_append_eq_append_drop, List.take_append_eq_append_take,
    List.drop_eq_nil_of_le (by omega), List.take_of_length_le (by omega),
    hl, List.drop_replicate, List.take_replicate]
  have h5 : 4 - k - (B - k) = 4 - B := by omega
  have h6 : min (B - k) (4 - k) = B - k := by omega
  rw [h5, h6]
  simp

theorem vlvRotate_short (B k : Nat) (hB : B = 1 ∨ B = 2 ∨ B = 3)
    (hk : k < B) (bs : List Nat) (hl : bs.length = k) :
    vlvRotate B (bs ++ List.replicate (4 - k) 0) =
      some (List.replicate (4 - B) 0 ++ (bs ++ List.replicate (B - k) 0)) := by
  rcases hB with rfl | rfl | rfl <;>
    simpa [vlvRotate] using
      rotateRight4_pad_short bs _ k (by omega) hk hl

/-- Claim C3: when at least `BYTES ∈ {1,2,3}` bytes remain, the vector
decoder reads exactly `BYTES` bytes, interprets them big-endian
(zero-extended to 32 bits) as the new `length` field, and then decodes
`length / size_of(T)` elements in order from the following position; in
particular decoding `[0x03, 0x34, 0x56, 0x78]` into a default
`VariableLengthVector<u8, BYTES=1>` yields `length = 3`,
`data = [0x34, 0x56, 0x78]`, consuming exactly 4 bytes. -/
theorem vlv_decode_reads_header {α : Type} (sizeOfT : Nat) (defaultT : α)
    (fromT : α → Cursor → Except DecErr (α × Cursor)) (BYTES : Nat)
    (self : VariableLengthVector α) (c : Cursor)
    (hB : BYTES = 1 ∨ BYTES = 2 ∨ BYTES = 3)
    (hrem : c.pos + BYTES ≤ c.buf.length) :
    (vlv_from_network_bytes sizeOfT defaultT fromT BYTES self c =
      match decodeLoop fromT defaultT
          (beVal ((c.buf.drop c.pos).take BYTES) / sizeOfT) self.data
          ⟨c.buf, c.pos + BYTES⟩ with
      | .ok (data, v') =>
        .ok (⟨beVal ((c.buf.drop c.pos).take BYTES), data⟩, v')
      | .error e => .error e) ∧
    vlv_from_network_bytes 1 0 u8_from_network_bytes 1 ⟨0, []⟩
        ⟨[0x03, 0x34, 0x56, 0x78], 0⟩ =
      .ok (⟨3, [0x34, 0x56, 0x78]⟩, ⟨[0x03, 0x34, 0x56, 0x78], 4⟩) := by
  constructor
  · have hk : min (min BYTES 4) (c.buf.length - c.pos) = BYTES := by
      rcases hB with rfl | rfl | rfl <;> omega
    have hlen : ((c.buf.drop c.pos).take BYTES).length = BYTES := by
      simp only [List.length_take, List.length_drop]
      omega
    simp only [vlv_from_network_bytes, vlvTakeRead, hk, hlen,
      vlvRotate_pad BYTES hB _ hlen, beVal_replicate_zero]
  · rfl

/-- Witness for C3: the general statement applied at the spec's concrete
example, a one-byte-prefixed vector of `u8` over `[0x03, 0x34, 0x56, 0x78]`. -/
theorem vlv_decode_reads_header_witness :
    vlv_from_network_bytes 1 0 u8_from_network_bytes 1 ⟨0, []⟩
        ⟨[0x03, 0x34, 0x56, 0x78], 0⟩ =
      .ok (⟨3, [0x34, 0x56, 0x78]⟩, ⟨[0x03, 0x34, 0x56, 0x78], 4⟩) :=
  (vlv_decode_reads_header 1 0 u8_from_network_bytes 1 ⟨0, []⟩
    ⟨[0x03, 0x34, 0x56, 0x78], 0⟩ (Or.inl rfl) (by decide)).2

/-- Claim C5 (counterexample): decoding a `VariableLengthVector<u8,
BYTES=1>` from an empty cursor — fewer than `BYTES` bytes remain — does not
fail with the truncated-input error: the `take(BYTES).read(&mut buffer)`
call reads zero bytes and reports success, the zero-filled buffer decodes
to `length = 0`, and the whole call returns `Ok`. -/
theorem vlv_empty_cursor_decodes :
    vlv_from_network_bytes 1 0 u8_from_network_bytes 1 ⟨0, []⟩ ⟨[], 0⟩ =
      .ok (⟨0, []⟩, ⟨[], 0⟩) ∧
    vlv_from_network_bytes 1 0 u8_from_network_bytes 1 ⟨0, []⟩ ⟨[], 0⟩ ≠
      .error .truncatedInput :=
  ⟨rfl, fun h => Except.noConfusion h⟩

/-- Claim C5 (amended): when fewer than `BYTES ∈ {1,2,3}` bytes remain, the
header is silently built from the remaining bytes zero-padded on the right
(no error at the header stage); the decode then returns success with
`length = 0` when that padded value is zero (in particular on an empty
cursor), and fails with the truncated-input error only afterwards, when the
nonzero computed element count meets the exhausted cursor. -/
theorem vlv_short_header (BYTES : Nat) (self : VariableLengthVector Nat)
    (c : Cursor) (hB : BYTES = 1 ∨ BYTES = 2 ∨ BYTES = 3)
    (hpos : c.pos ≤ c.buf.length)
    (hshort : c.buf.length - c.pos < BYTES) :
    (beVal (c.buf.drop c.pos ++
        List.replicate (BYTES - (c.buf.length - c.pos)) 0) = 0 →
      vlv_from_network_bytes 1 0 u8_from_network_bytes BYTES self c =
        .ok (⟨0, self.data⟩, ⟨c.buf, c.buf.length⟩)) ∧
    (0 < beVal (c.buf.drop c.pos ++
        List.replicate (BYTES - (c.buf.length - c.pos)) 0) →
      vlv_from_network_bytes 1 0 u8_from_network_bytes BYTES self c =
        .error .truncatedInput) := by
  have hk : min (min BYTES 4) (c.buf.length - c.pos) =
      c.buf.length - c.pos := by
    rcases hB with rfl | rfl | rfl <;> omega
  have hbs : (c.buf.drop c.pos).take (c.buf.length - c.pos) =
      c.buf.drop c.pos := by
    rw [← List.length_drop]
    exact List.take_length _
  have hdl : (c.buf.drop c.pos).length = c.buf.length - c.pos :=
    List.length_drop _ _
  have hc : c.pos + (c.buf.length - c.pos) = c.buf.length := by omega
  constructor <;> intro hL <;>
    simp only [vlv_from_network_bytes, vlvTakeRead, hk, hbs, hdl, hc,
      vlvRotate_short BYTES (c.buf.length - c.pos) hB hshort _ hdl,
      beVal_replicate_zero, Nat.div_one, hL]
  · rfl
  · obtain ⟨m, hm⟩ := Nat.exists_eq_succ_of_ne_zero (Nat.pos_iff_ne_zero.mp hL)
    rw [hm]
    simp only [decodeLoop, u8_from_network_bytes, readExact]
    rw [if_neg (by omega)]

/-- Witness for the amended C5: a two-byte-prefix vector read from the
single-byte buffer `[0x05]` builds the padded header value
`0x05 * 256 = 1280 ≠ 0` from one byte and then fails with the
truncated-input error at the first of the 1280 elements. -/
theorem vlv_short_header_witness :
    vlv_from_network_bytes 1 0 u8_from_network_bytes 2 ⟨0, []⟩
        ⟨[0x05], 0⟩ = .error .truncatedInput :=
  (vlv_short_header 2 ⟨0, []⟩ ⟨[0x05], 0⟩ (Or.inr (Or.inl rfl)) (by decide)
    (by decide)).2 (by decide)

/-- Claim C2 (counterexample): for the vector built by `from_slice` from
one `A { a: u16, b: u8 }` element with a one-byte prefix, `tls_len` is
`1 + 1 * size_of::<A>() = 5` (the Rust layout size 4 includes one padding
byte), while `to_network_bytes` writes the prefix plus the 2 + 1 field
bytes and returns 4 — so the length operation does not agree with the
encoded byte count for vectors of derived composite structures. -/
theorem vlv_composite_length_disagrees :
    vlv_tls_len size_of_StructA 1 (vlv_from_slice size_of_StructA
      [(⟨0, 0⟩ : StructA)]) = 5 ∧
    vlv_to_network_bytes structA_to_network_bytes 1
        (vlv_from_slice size_of_StructA [(⟨0, 0⟩ : StructA)]) [] =
      .ok ([4, 0, 0, 0], 4) ∧
    (5 : Nat) ≠ 4 :=
  ⟨rfl, rfl, by decide⟩

theorem vlv_decode_enc (BYTES : Nat)
    (hB : BYTES = 1 ∨ BYTES = 2 ∨ BYTES = 3) (pfxb data : List Nat)
    (hplen : pfxb.length = BYTES) (hbev : beVal pfxb = data.length) :
    vlv_from_network_bytes 1 0 u8_from_network_bytes BYTES ⟨0, []⟩
        ⟨pfxb ++ data, 0⟩ =
      .ok (⟨data.length, data⟩, ⟨pfxb ++ data, BYTES + data.length⟩) := by
  have hk : min (min BYTES 4) ((pfxb ++ data).length - 0) = BYTES := by
    rcases hB with rfl | rfl | rfl <;>
      simp [List.length_append, hplen]
  have hbr : (pfxb ++ data).take BYTES = pfxb := by
    rw [← hplen]
    exact List.take_left _ _
  have hdr : (pfxb ++ data).drop BYTES = data := by
    rw [← hplen]
    exact List.drop_left _ _
  simp only [vlv_from_network_bytes, vlvTakeRead, List.drop_zero, hk, hbr,
    hplen, vlvRotate_pad BYTES hB pfxb hplen, beVal_replicate_zero, hbev,
    Nat.div_one, Nat.zero_add]
  rw [decodeLoop_u8 (pfxb ++ data) data.length BYTES []
    (by simp [List.length_append, hplen])]
  simp [hdr, List.take_length]

/-- Claim C2 (amended): length agreement holds when every element's Rust
memory size equals its encoded width, as for `u8` elements: for a valid
instance (`length = data.len()`, each byte < 256, `length` fitting the
prefix) `tls_len` equals `BYTES + data.len()`, `to_network_bytes` appends
exactly that many bytes and returns that count, and decoding the encoding
from a fresh cursor consumes exactly that many bytes and reproduces the
instance.  (It fails for derived composite elements whose `size_of`
exceeds their summed field widths.) -/
theorem length_agreement_u8 (BYTES : Nat) (data v : List Nat)
    (hB : BYTES = 1 ∨ BYTES = 2 ∨ BYTES = 3)
    (hlt : data.length < 256 ^ BYTES)
    (helem : ∀ b ∈ data, b < 256) :
    vlv_tls_len 1 BYTES ⟨data.length, data⟩ = BYTES + data.length ∧
    vlv_to_network_bytes u8_to_network_bytes BYTES ⟨data.length, data⟩ v =
      .ok (v ++ ((u32beBytes data.length).drop (4 - BYTES) ++ data),
        BYTES + data.length) ∧
    vlv_from_network_bytes 1 0 u8_from_network_bytes BYTES ⟨0, []⟩
        ⟨(u32beBytes data.length).drop (4 - BYTES) ++ data, 0⟩ =
      .ok (⟨data.length, data⟩,
        ⟨(u32beBytes data.length).drop (4 - BYTES) ++ data,
          BYTES + data.length⟩) := by
  have hplen : ((u32beBytes data.length).drop (4 - BYTES)).length = BYTES := by
    rcases hB with rfl | rfl | rfl <;> simp [u32beBytes]
  have hbev : beVal ((u32beBytes data.length).drop (4 - BYTES)) =
      data.length := by
    rcases hB with rfl | rfl | rfl
    · have h1 : data.length < 256 := by simpa using hlt
      simp [u32beBytes, beVal]
      omega
    · have h1 : data.length < 65536 := by simpa using hlt
      simp [u32beBytes, beVal]
      omega
    · have h1 : data.length < 16777216 := by simpa using hlt
      simp [u32beBytes, beVal]
      omega
  refine ⟨by simp [vlv_tls_len], ?_, ?_⟩
  · rcases hB with rfl | rfl | rfl <;>
      (simp only [vlv_to_network_bytes]
       rw [encodeLoop_u8 data _ 0 helem]
       simp [List.append_assoc]
       try omega)
  · exact vlv_decode_enc BYTES hB _ data hplen hbev

/-- Witness for the amended C2: the one-byte-prefix `u8` vector holding
`[0x34, 0x56]` encodes to `[0x02, 0x34, 0x56]` with byte count
`3 = tls_len`. -/
theorem length_agreement_u8_witness :
    vlv_to_network_bytes u8_to_network_bytes 1 ⟨2, [0x34, 0x56]⟩ [] =
      .ok ([0x02, 0x34, 0x56], 3) := by
  have h := (length_agreement_u8 1 [0x34, 0x56] [] (Or.inl rfl) (by decide)
    (by decide)).2.1
  exact h
